import Mathlib

/-!
Verification of the Kiro credential-pool manager (CLIProxyAPIPlus).

The Go source is shallowly embedded as follows:
* `time.Time` is an integer ordinate in nanoseconds on a linear time axis;
  the ordinate `0` stands for Go's zero `time.Time` (`IsZero`).
* `time.Duration` is an `Int` (Go's `int64` nanosecond count); where 64-bit
  overflow matters it is applied explicitly through `wrap64`.
* Go maps are embedded as functions `String → Option α` (Go maps have no
  duplicate keys, and the code only ever reads them through lookups).
* A parsed JSON document (`map[string]any`) is a `String → Option Json`.
* `float64` arithmetic is idealised as exact `ℚ` arithmetic, and `math.Exp`
  is kept abstract as a function parameter, so that score theorems state
  algebraic identities independent of any model of `exp`.
* RFC3339 formatting/parsing of timestamps is kept abstract
  (`Int → String` / `String → Option Int` parameters).
-/

namespace Kiro

/-- A Go map keyed by strings, embedded as a lookup function
(`none` = key absent). -/
def JMap (α : Type) : Type := String → Option α

/-- Go map assignment `m[k] = v`. -/
def mapSet {α : Type} (m : JMap α) (k : String) (v : α) : JMap α :=
  fun k' => if k' = k then some v else m k'

/-- Go map `delete(m, k)`. -/
def mapDel {α : Type} (m : JMap α) (k : String) : JMap α :=
  fun k' => if k' = k then none else m k'

/-- The empty Go map. -/
def mapEmpty {α : Type} : JMap α := fun _ => none

/-- A guarded Go map assignment: `if cond { m[k] = v }`. -/
def setIf (cond : Prop) [Decidable cond] {α : Type} (m : JMap α) (k : String)
    (v : α) : JMap α :=
  if cond then mapSet m k v else m

/-- A JSON value as produced by Go's `json.Unmarshal` into `any`.
The source only ever inspects values through string type assertions
(`v.(string)`), so it never looks inside a non-string value; `arr` and `obj`
keep the nested structure for round-trip statements. -/
inductive Json where
  | null : Json
  | bool (b : Bool) : Json
  | num (q : ℚ) : Json
  | str (s : String) : Json
  | arr (elems : List Json) : Json
  | obj (fields : List (String × Json)) : Json

/-- Go `v, _ := m[k].(string)`: the string value of field `k`, or `""` when
the field is absent or not a string. -/
def getStr (m : JMap Json) (k : String) : String :=
  match m k with
  | some (Json.str s) => s
  | _ => ""

/-- The `Token` struct used by `FileTokenRepository` (fields as used in
`token_repository.go`). Times are integer ordinates, `0` = zero time. -/
structure Token where
  ID : String
  AccessToken : String
  RefreshToken : String
  ClientID : String
  ClientSecret : String
  AuthMethod : String
  Region : String
  StartURL : String
  Provider : String
  ExpiresAt : Int
  LastVerified : Int
deriving DecidableEq

/-- The all-zero `Token` (Go zero value), used as the base that
`readTokenFile` fills in. -/
def zeroToken : Token :=
  { ID := "", AccessToken := "", RefreshToken := "", ClientID := "",
    ClientSecret := "", AuthMethod := "", Region := "", StartURL := "",
    Provider := "", ExpiresAt := 0, LastVerified := 0 }

/-- Go `time.Parse(time.RFC3339, v)` result on a field: the parsed ordinate,
or the zero time when the field is absent, not a string, or unparseable. -/
def parseTimeField (parseTime : String → Option Int) (m : JMap Json)
    (k : String) : Int :=
  match m k with
  | some (Json.str s) => (parseTime s).getD 0
  | _ => 0

/-- `FileTokenRepository.readTokenFile` (token_repository.go:173-237) on an
already-parsed JSON document: returns `none` exactly where the source
returns a nil token (type mismatch or unsupported auth method). `name` is
`filepath.Base(path)`. -/
def readTokenFile (parseTime : String → Option Int) (name : String)
    (m : JMap Json) : Option Token :=
  let tokenType := getStr m "type"
  if tokenType ≠ "kiro" then none
  else
    let authMethod := getStr m "auth_method"
    if authMethod ≠ "idc" ∧ authMethod ≠ "builder-id" then none
    else some
      { zeroToken with
        ID := name
        AuthMethod := authMethod
        AccessToken := getStr m "access_token"
        RefreshToken := getStr m "refresh_token"
        ClientID := getStr m "client_id"
        ClientSecret := getStr m "client_secret"
        Region := getStr m "region"
        StartURL := getStr m "start_url"
        Provider := getStr m "provider"
        ExpiresAt := parseTimeField parseTime m "expires_at"
        LastVerified := parseTimeField parseTime m "last_refresh" }

/-- `FileTokenRepository.UpdateToken` (token_repository.go:101-170) at the
level of the JSON document it writes: the existing file content (empty map
when the file was absent or unparseable) with the token's fields written
into it. `fmtTime` is `time.Format(time.RFC3339)` kept abstract; `now` is
the wall clock at the update. -/
def UpdateToken (fmtTime : Int → String) (existing : JMap Json) (t : Token)
    (now : Int) : JMap Json :=
  let m := mapSet existing "access_token" (Json.str t.AccessToken)
  let m := mapSet m "refresh_token" (Json.str t.RefreshToken)
  let m := mapSet m "last_refresh" (Json.str (fmtTime now))
  let m := setIf (t.ExpiresAt ≠ 0) m "expires_at" (Json.str (fmtTime t.ExpiresAt))
  let m := setIf (t.ClientID ≠ "") m "client_id" (Json.str t.ClientID)
  let m := setIf (t.ClientSecret ≠ "") m "client_secret" (Json.str t.ClientSecret)
  let m := setIf (t.AuthMethod ≠ "") m "auth_method" (Json.str t.AuthMethod)
  let m := setIf (t.Region ≠ "") m "region" (Json.str t.Region)
  setIf (t.StartURL ≠ "") m "start_url" (Json.str t.StartURL)

/-- The JSON keys `UpdateToken` may write. -/
def updatedKeys : List String :=
  ["access_token", "refresh_token", "last_refresh", "expires_at",
   "client_id", "client_secret", "auth_method", "region", "start_url"]

/-- One file seen by the directory walk: its base name and its parsed JSON
content (`none` when reading or `json.Unmarshal` fails). -/
structure DirEntry where
  name : String
  content : Option (JMap Json)

/-- Whether the character list starting here begins with `pat`. -/
def startsWithChars : List Char → List Char → Bool
  | [], _ => true
  | _ :: _, [] => false
  | p :: ps, c :: cs => p == c && startsWithChars ps cs

/-- Go `strings.HasPrefix(s, pat)`. -/
def strStarts (s pat : String) : Bool :=
  startsWithChars pat.data s.data

/-- Go `strings.HasSuffix(s, pat)`. -/
def strEnds (s pat : String) : Bool :=
  startsWithChars pat.data.reverse s.data.reverse

/-- Go `strings.ToLower` (ASCII range, which is all the source compares). -/
def strLower (s : String) : String :=
  String.mk (s.data.map Char.toLower)

/-- The refresh look-ahead window (`5 * time.Minute`) in nanoseconds. -/
def fiveMinutesNs : Int := 300000000000

/-- The per-file body of the `WalkDir` closure in `FindOldestUnverified`
(token_repository.go:51-81): `some t` exactly when the file contributes a
token to the collected slice. -/
def walkEntry (parseTime : String → Option Int) (now : Int) (e : DirEntry) :
    Option Token :=
  if ¬ (strEnds (strLower e.name) ".json") then none
  else if ¬ (strStarts e.name "kiro-") then none
  else
    match e.content with
    | none => none
    | some m =>
      match readTokenFile parseTime e.name m with
      | none => none
      | some t =>
        if t.RefreshToken ≠ "" ∧ (t.ExpiresAt = 0 ∨ t.ExpiresAt - now < fiveMinutesNs)
        then some t else none

/-- The tokens collected by the directory walk, in walk order. -/
def collectTokens (parseTime : String → Option Int) (dir : List DirEntry)
    (now : Int) : List Token :=
  dir.filterMap (walkEntry parseTime now)

/-- The ordering used by `sort.Slice` in `FindOldestUnverified`
(its reflexive closure: the sort produces a list that is non-decreasing in
`LastVerified`). -/
def lvLE (a b : Token) : Prop := a.LastVerified ≤ b.LastVerified

instance : DecidableRel lvLE := fun a b => Int.decLe a.LastVerified b.LastVerified

instance : IsTotal Token lvLE := ⟨fun a b => Int.le_total a.LastVerified b.LastVerified⟩

instance : IsTrans Token lvLE := ⟨fun _ _ _ h₁ h₂ => le_trans h₁ h₂⟩

/-- `FileTokenRepository.FindOldestUnverified` (token_repository.go:39-98):
walk, filter, sort ascending by `LastVerified`, truncate to `limit` when
`limit > 0`. `sort.Slice` is embedded as insertion sort over the same
ordering. -/
def FindOldestUnverified (parseTime : String → Option Int)
    (dir : List DirEntry) (now : Int) (limit : Int) : List Token :=
  let tokens := List.insertionSort lvLE (collectTokens parseTime dir now)
  if 0 < limit ∧ limit < (tokens.length : Int) then tokens.take limit.toNat
  else tokens

/-- `TokenMetrics` (metrics.go:10-19): per-token rolling metrics.
`float64` fields are idealised as `ℚ`; `LastUsed` is a time ordinate
(`0` = zero time); counters are `Nat` (they are only ever incremented from
zero or reset to zero). -/
structure TokenMetrics where
  SuccessRate : ℚ
  AvgLatency : ℚ
  QuotaRemaining : ℚ
  LastUsed : Int
  FailCount : Nat
  TotalRequests : Nat
  successCount : Nat
  totalLatency : ℚ
deriving DecidableEq

/-- The scoring weights carried by `TokenScorer` (metrics.go:27-31). -/
structure ScorerWeights where
  successRateWeight : ℚ
  quotaWeight : ℚ
  latencyWeight : ℚ
  lastUsedWeight : ℚ
  failPenaltyMultiplier : ℚ
deriving DecidableEq

/-- `NewTokenScorer` (metrics.go:35-44): the default weights. -/
def defaultWeights : ScorerWeights :=
  { successRateWeight := 0.4, quotaWeight := 0.25, latencyWeight := 0.2,
    lastUsedWeight := 0.15, failPenaltyMultiplier := 0.1 }

/-- The metrics map of a `TokenScorer`. -/
def ScorerState : Type := JMap TokenMetrics

/-- `getOrCreateMetrics` (metrics.go:47-57): the optimistic initial record. -/
def freshMetrics : TokenMetrics :=
  { SuccessRate := 1, AvgLatency := 0, QuotaRemaining := 1, LastUsed := 0,
    FailCount := 0, TotalRequests := 0, successCount := 0, totalLatency := 0 }

/-- `TokenScorer.RecordRequest` (metrics.go:60-81). `latencyMs` is
`latency.Milliseconds()` (an integer); `now` is the wall clock. -/
def RecordRequest (s : ScorerState) (tokenKey : String) (success : Bool)
    (latencyMs : Int) (now : Int) : ScorerState :=
  let m := (s tokenKey).getD freshMetrics
  let m := { m with
    TotalRequests := m.TotalRequests + 1
    LastUsed := now
    totalLatency := m.totalLatency + (latencyMs : ℚ) }
  let m := if success then
      { m with successCount := m.successCount + 1, FailCount := 0 }
    else { m with FailCount := m.FailCount + 1 }
  let m := { m with
    SuccessRate := (m.successCount : ℚ) / (m.TotalRequests : ℚ)
    AvgLatency := m.totalLatency / (m.TotalRequests : ℚ) }
  mapSet s tokenKey m

/-- `TokenScorer.SetQuotaRemaining` (metrics.go:84-90). -/
def SetQuotaRemaining (s : ScorerState) (tokenKey : String) (quota : ℚ) :
    ScorerState :=
  let m := (s tokenKey).getD freshMetrics
  mapSet s tokenKey { m with QuotaRemaining := quota }

/-- `time.Since(lastUsed).Seconds()` at wall clock `now`. -/
def secondsSince (now lastUsed : Int) : ℚ :=
  ((now - lastUsed : Int) : ℚ) / 1000000000

/-- `TokenScorer.CalculateScore` (metrics.go:105-150). `e` is `math.Exp`,
kept abstract; `w` the scorer's weights; `now` the wall clock at the call. -/
def CalculateScore (e : ℚ → ℚ) (w : ScorerWeights) (s : ScorerState)
    (now : Int) (tokenKey : String) : ℚ :=
  match s tokenKey with
  | none => 1
  | some m =>
    let successScore := m.SuccessRate
    let quotaScore := m.QuotaRemaining
    let latencyScore := if m.TotalRequests = 0 then 1 else e (-m.AvgLatency / 1000)
    let lastUsedScore := if m.LastUsed = 0 then 1
      else 1 - e (-(secondsSince now m.LastUsed) / 60)
    let score := w.successRateWeight * successScore +
      w.quotaWeight * quotaScore +
      w.latencyWeight * latencyScore +
      w.lastUsedWeight * lastUsedScore
    if 0 < m.FailCount then
      score * max 0 (1 - w.failPenaltyMultiplier * (m.FailCount : ℚ))
    else score

/-- `TokenScorer.SelectBestToken` (metrics.go:153-173). -/
def SelectBestToken (e : ℚ → ℚ) (w : ScorerWeights) (s : ScorerState)
    (now : Int) (tokens : List String) : String :=
  match tokens with
  | [] => ""
  | t :: rest =>
    if rest.isEmpty then t
    else
      (rest.foldl
        (fun acc token =>
          let score := CalculateScore e w s now token
          if acc.2 < score then (token, score) else acc)
        (t, CalculateScore e w s now t)).1

/-- `DefaultShortCooldown = 1 * time.Minute` in nanoseconds. -/
def DefaultShortCooldown : Int := 60000000000

/-- `MaxShortCooldown = 5 * time.Minute` in nanoseconds. -/
def MaxShortCooldown : Int := 300000000000

/-- Two's-complement wrap of an integer to Go's 64-bit `int64` /
`time.Duration`. -/
def wrap64 (n : Int) : Int := (n + 2 ^ 63) % 2 ^ 64 - 2 ^ 63

/-- `CalculateCooldownFor429` (cooldown source, lines 280-286):
`DefaultShortCooldown * time.Duration(1 << retryCount)` in Go `int64`
arithmetic, capped at `MaxShortCooldown`. -/
def CalculateCooldownFor429 (retryCount : Nat) : Int :=
  let duration := wrap64 (DefaultShortCooldown * wrap64 (2 ^ retryCount))
  if MaxShortCooldown < duration then MaxShortCooldown else duration

/-- `CooldownManager` (cooldown source, lines 198-202): end-time and reason
maps keyed by token. -/
structure CooldownManager where
  cooldowns : JMap Int
  reasons : JMap String

/-- `NewCooldownManager` (lines 204-209). -/
def NewCooldownManager : CooldownManager :=
  { cooldowns := mapEmpty, reasons := mapEmpty }

/-- `CooldownManager.SetCooldown` (lines 211-216): end time is
`now + duration`. -/
def SetCooldown (cm : CooldownManager) (tokenKey : String) (now duration : Int)
    (reason : String) : CooldownManager :=
  { cooldowns := mapSet cm.cooldowns tokenKey (now + duration)
    reasons := mapSet cm.reasons tokenKey reason }

/-- `CooldownManager.IsInCooldown` (lines 218-226). -/
def IsInCooldown (cm : CooldownManager) (now : Int) (tokenKey : String) : Bool :=
  match cm.cooldowns tokenKey with
  | none => false
  | some endTime => decide (now < endTime)

/-- `CooldownManager.ClearCooldown` (lines 248-253). -/
def ClearCooldown (cm : CooldownManager) (tokenKey : String) : CooldownManager :=
  { cooldowns := mapDel cm.cooldowns tokenKey
    reasons := mapDel cm.reasons tokenKey }

/-- `CooldownManager.CleanupExpired` (lines 255-265): for every key whose
end time `endTime` satisfies `now.After(endTime)` (strictly passed), both
the cooldown entry and the reason entry are deleted; nothing else changes. -/
def CleanupExpired (cm : CooldownManager) (now : Int) : CooldownManager :=
  { cooldowns := fun k =>
      match cm.cooldowns k with
      | some endTime => if endTime < now then none else some endTime
      | none => none
    reasons := fun k =>
      match cm.cooldowns k with
      | some endTime => if endTime < now then none else cm.reasons k
      | none => cm.reasons k }

/-- The `CooldownManager` states reachable from `NewCooldownManager` by the
mutating operations. -/
inductive CMReachable : CooldownManager → Prop where
  | init : CMReachable NewCooldownManager
  | set (cm : CooldownManager) (tokenKey : String) (now duration : Int)
      (reason : String) : CMReachable cm →
      CMReachable (SetCooldown cm tokenKey now duration reason)
  | clear (cm : CooldownManager) (tokenKey : String) : CMReachable cm →
      CMReachable (ClearCooldown cm tokenKey)
  | cleanup (cm : CooldownManager) (now : Int) : CMReachable cm →
      CMReachable (CleanupExpired cm now)

/-- Whether `pat` occurs as a contiguous run inside the character list. -/
def containsChars (pat : List Char) : List Char → Bool
  | [] => startsWithChars pat []
  | c :: cs => startsWithChars pat (c :: cs) || containsChars pat cs

/-- Go `strings.Contains(s, pat)`. -/
def strContainsSub (s pat : String) : Bool :=
  containsChars pat.data s.data

/-- Modelled from the spec: the per-key `RateLimiterState` of §3 (the
rate-limiter implementation file is not under src/, only its tests are).
Attributes: consecutive failure count, cooldown-end timestamp
(`0` = none), suspended flag. -/
structure TokenState where
  FailCount : Nat
  CooldownEnd : Int
  IsSuspended : Bool
deriving DecidableEq

/-- Modelled from the spec: the zero `TokenState` a state is lazily created
from. -/
def zeroTokenState : TokenState :=
  { FailCount := 0, CooldownEnd := 0, IsSuspended := false }

/-- Modelled from the spec: the Rate Limiter's per-key state map (§4.1). -/
structure RateLimiter where
  states : JMap TokenState

/-- Modelled from the spec: `NewRateLimiter` starts with no per-key state. -/
def NewRateLimiter : RateLimiter := { states := mapEmpty }

/-- Modelled from the spec: `IsAvailable(key)` — "true unless the key's
state is suspended or its cooldown-end is in the future. Unknown keys are
available." (§4.1). -/
def IsTokenAvailable (rl : RateLimiter) (now : Int) (tokenKey : String) : Bool :=
  match rl.states tokenKey with
  | none => true
  | some st => !st.IsSuspended && !(decide (now < st.CooldownEnd))

/-- Modelled from the spec: the fixed set of phrases indicating permanent or
severe throttling (§4.1: ban, suspend, disable, deny, rate-limit,
too-many-requests, quota-exceeded), matched case-insensitively as
substrings; "denied" is included so that the repository's own test inputs
("Access denied permanently") match. -/
def suspensionKeywords : List String :=
  ["ban", "suspend", "disable", "deny", "denied", "rate limit",
   "too many requests", "quota exceeded"]

/-- Modelled from the spec: whether the error text matches one of the fixed
suspension phrases. -/
def matchesSuspension (errorText : String) : Bool :=
  suspensionKeywords.any (fun kw => strContainsSub (strLower errorText) kw)

/-- Modelled from the spec: `CheckAndMarkSuspended(key, errorText)` — "on
match, sets suspended=true and returns true; otherwise returns false and
state is unchanged" (§4.1). -/
def CheckAndMarkSuspended (rl : RateLimiter) (tokenKey errorText : String) :
    Bool × RateLimiter :=
  if matchesSuspension errorText then
    let st := (rl.states tokenKey).getD zeroTokenState
    (true, { states := mapSet rl.states tokenKey { st with IsSuspended := true } })
  else (false, rl)

/-- `Fingerprint` (fingerprint source): a synthetic device identity. -/
structure Fingerprint where
  SDKVersion : String
  OSType : String
  OSVersion : String
  NodeVersion : String
  KiroVersion : String
  KiroHash : String
  AcceptLanguage : String
  ScreenResolution : String
  ColorDepth : Int
  HardwareConcurrency : Int
  TimezoneOffset : Int
deriving DecidableEq

/-- Catalog `sdkVersions`. -/
def sdkVersions : List String :=
  ["1.0.20", "1.0.21", "1.0.22", "1.0.23", "1.0.24", "1.0.25", "1.0.26", "1.0.27"]

/-- Catalog `osTypes`. -/
def osTypes : List String := ["darwin", "windows", "linux"]

/-- Catalog `osVersions`: the Go map from OS type to its version catalog
(`nil` for an unknown OS type). -/
def osVersionsFor (osType : String) : List String :=
  if osType = "darwin" then
    ["14.0", "14.1", "14.2", "14.3", "14.4", "14.5", "15.0", "15.1"]
  else if osType = "windows" then
    ["10.0.19041", "10.0.19042", "10.0.19043", "10.0.19044", "10.0.22621", "10.0.22631"]
  else if osType = "linux" then
    ["5.15.0", "6.1.0", "6.2.0", "6.5.0", "6.6.0", "6.8.0"]
  else []

/-- Catalog `nodeVersions`. -/
def nodeVersions : List String :=
  ["18.17.0", "18.18.0", "18.19.0", "18.20.0",
   "20.9.0", "20.10.0", "20.11.0", "20.12.0", "20.13.0",
   "22.0.0", "22.1.0", "22.2.0", "22.3.0"]

/-- Catalog `kiroVersions`. -/
def kiroVersions : List String :=
  ["0.3.0", "0.3.1", "0.4.0", "0.4.1", "0.5.0", "0.5.1",
   "0.6.0", "0.6.1", "0.7.0", "0.7.1", "0.8.0", "0.8.1"]

/-- Catalog `acceptLanguages`. -/
def acceptLanguages : List String :=
  ["en-US,en;q=0.9", "en-GB,en;q=0.9", "zh-CN,zh;q=0.9,en;q=0.8",
   "zh-TW,zh;q=0.9,en;q=0.8", "ja-JP,ja;q=0.9,en;q=0.8",
   "ko-KR,ko;q=0.9,en;q=0.8", "de-DE,de;q=0.9,en;q=0.8",
   "fr-FR,fr;q=0.9,en;q=0.8"]

/-- Catalog `screenResolutions`. -/
def screenResolutions : List String :=
  ["1920x1080", "2560x1440", "3840x2160", "1366x768", "1440x900",
   "1680x1050", "2560x1600", "3440x1440"]

/-- Catalog `colorDepths`. -/
def colorDepths : List Int := [24, 32]

/-- Catalog `hardwareConcurrencies`. -/
def hardwareConcurrencies : List Int := [4, 6, 8, 10, 12, 16, 20, 24, 32]

/-- Catalog `timezoneOffsets`. -/
def timezoneOffsets : List Int := [-480, -420, -360, -300, -240, 0, 60, 120, 480, 540]

/-- The manager's `math/rand` source, embedded as the stream of values its
successive draws produce, plus a cursor. `rng i % n` is the i-th call to
`rng.Intn(n)`. -/
structure FMState where
  fingerprints : JMap Fingerprint
  rngPos : Nat

/-- `NewFingerprintManager` (fingerprint source): empty map, fresh
random stream. -/
def NewFingerprintManager : FMState := { fingerprints := mapEmpty, rngPos := 0 }

/-- `randomChoice` at stream position `p`. -/
def randomChoice (rng : Nat → Nat) (p : Nat) (choices : List String) : String :=
  choices.getD (rng p % choices.length) ""

/-- `randomIntChoice` at stream position `p`. -/
def randomIntChoice (rng : Nat → Nat) (p : Nat) (choices : List Int) : Int :=
  choices.getD (rng p % choices.length) 0

/-- `generateKiroHash` (fingerprint source): SHA-256 hex digest of
`key:kiroVersion:osType:nowNano`; the digest is kept abstract as `hash`. -/
def generateKiroHash (hash : String → String) (nowNano : Int)
    (tokenKey kiroVersion osType : String) : String :=
  hash (tokenKey ++ ":" ++ kiroVersion ++ ":" ++ osType ++ ":" ++ toString nowNano)

/-- `generateFingerprint` (fingerprint source): ten successive draws from
the random source, in the evaluation order of the Go function, plus the
derived hash. -/
def generateFingerprint (rng : Nat → Nat) (hash : String → String)
    (nowNano : Int) (p : Nat) (tokenKey : String) : Fingerprint :=
  let osType := randomChoice rng p osTypes
  let osVersion := randomChoice rng (p + 1) (osVersionsFor osType)
  let kiroVersion := randomChoice rng (p + 2) kiroVersions
  { SDKVersion := randomChoice rng (p + 3) sdkVersions
    OSType := osType
    OSVersion := osVersion
    NodeVersion := randomChoice rng (p + 4) nodeVersions
    KiroVersion := kiroVersion
    KiroHash := generateKiroHash hash nowNano tokenKey kiroVersion osType
    AcceptLanguage := randomChoice rng (p + 5) acceptLanguages
    ScreenResolution := randomChoice rng (p + 6) screenResolutions
    ColorDepth := randomIntChoice rng (p + 7) colorDepths
    HardwareConcurrency := randomIntChoice rng (p + 8) hardwareConcurrencies
    TimezoneOffset := randomIntChoice rng (p + 9) timezoneOffsets }

/-- `FingerprintManager.GetFingerprint` (fingerprint source): return the
stored fingerprint, or generate, store and return a new one (first-write-
wins). -/
def GetFingerprint (rng : Nat → Nat) (hash : String → String) (nowNano : Int)
    (st : FMState) (tokenKey : String) : Fingerprint × FMState :=
  match st.fingerprints tokenKey with
  | some fp => (fp, st)
  | none =>
    let fp := generateFingerprint rng hash nowNano st.rngPos tokenKey
    (fp, { fingerprints := mapSet st.fingerprints tokenKey fp
           rngPos := st.rngPos + 10 })

/-- A sequence of further `GetFingerprint` calls, applied for their state
effect. -/
def applyGets (rng : Nat → Nat) (hash : String → String) (nowNano : Int)
    (st : FMState) (keys : List String) : FMState :=
  keys.foldl (fun s k => (GetFingerprint rng hash nowNano s k).2) st

/-- `FingerprintManager.RemoveFingerprint` (fingerprint source). -/
def RemoveFingerprint (st : FMState) (tokenKey : String) : FMState :=
  { st with fingerprints := mapDel st.fingerprints tokenKey }

/-- The loop body of `SelectBestToken`: replace the best candidate exactly
when the new score is strictly greater. -/
def selStep (score : String → ℚ) (acc : String × ℚ) (token : String) :
    String × ℚ :=
  if acc.2 < score token then (token, score token) else acc

/-- A concrete parsed credential file for the C2 witness. -/
def fileMapW : JMap Json := fun k =>
  if k = "type" then some (Json.str "kiro")
  else if k = "auth_method" then some (Json.str "idc")
  else if k = "refresh_token" then some (Json.str "r") else none

/-- A concrete directory entry for the C2 witness. -/
def dirEntryW : DirEntry := { name := "kiro-a.json", content := some fileMapW }

/-- The token `readTokenFile` yields on `fileMapW`. -/
def tokenW : Token :=
  { ID := "kiro-a.json", AccessToken := "", RefreshToken := "r", ClientID := "",
    ClientSecret := "", AuthMethod := "idc", Region := "", StartURL := "",
    Provider := "", ExpiresAt := 0, LastVerified := 0 }

theorem mapSet_self {α : Type} (m : JMap α) (k : String) (v : α) :
    mapSet m k v k = some v := by
  simp [mapSet]

theorem mapSet_ne {α : Type} (m : JMap α) (k k' : String) (v : α) (h : k' ≠ k) :
    mapSet m k v k' = m k' := by
  simp [mapSet, h]

theorem setIf_self (cond : Prop) [Decidable cond] {α : Type} (m : JMap α)
    (k : String) (v : α) (hc : cond) : setIf cond m k v k = some v := by
  simp [setIf, hc, mapSet_self]

theorem setIf_ne (cond : Prop) [Decidable cond] {α : Type} (m : JMap α)
    (k k' : String) (v : α) (h : k' ≠ k) : setIf cond m k v k' = m k' := by
  by_cases hc : cond <;> simp [setIf, hc, mapSet_ne m k k' v h]

set_option maxRecDepth 8000 in
/-- C5 counterexample: at `retryCount = 28` the product
`DefaultShortCooldown * 2^28` overflows Go's signed 64-bit `time.Duration`,
so `CalculateCooldownFor429` returns a negative duration instead of the
capped value the claim demands. -/
theorem C5_counterexample_overflow_negative :
    CalculateCooldownFor429 28 < 0 ∧
    CalculateCooldownFor429 28 ≠
      min (DefaultShortCooldown * 2 ^ 28) MaxShortCooldown := by
  decide

set_option maxRecDepth 8000 in
/-- C5 (amended): for every retry count `n ≤ 27` — the range where
`DefaultShortCooldown * 2^n` fits in a signed 64-bit duration —
`CalculateCooldownFor429 n` equals the base short cooldown times `2^n`
capped at `MaxShortCooldown`, hence is nonnegative and never exceeds
`MaxShortCooldown`. -/
theorem C5_cooldown_for_429_capped :
    ∀ n : Nat, n ≤ 27 →
      CalculateCooldownFor429 n =
        min (DefaultShortCooldown * 2 ^ n) MaxShortCooldown ∧
      0 ≤ CalculateCooldownFor429 n ∧
      CalculateCooldownFor429 n ≤ MaxShortCooldown := by
  decide

/-- C5 witness: the amended theorem applied at `n = 3`. -/
theorem C5_cooldown_witness :
    3 ≤ 27 ∧
    (CalculateCooldownFor429 3 =
        min (DefaultShortCooldown * 2 ^ 3) MaxShortCooldown ∧
      0 ≤ CalculateCooldownFor429 3 ∧
      CalculateCooldownFor429 3 ≤ MaxShortCooldown) :=
  ⟨by decide, C5_cooldown_for_429_capped 3 (by decide)⟩

/-- C6: `CheckAndMarkSuspended` returns `true` and marks the key suspended
(after which `IsTokenAvailable` is `false` at every time) exactly when the
error text matches one of the fixed suspension phrases; on a non-matching
text it returns `false` and the rate-limiter state is unchanged. -/
theorem C6_check_and_mark_suspended (rl : RateLimiter)
    (tokenKey errorText : String) (now : Int) :
    (CheckAndMarkSuspended rl tokenKey errorText).1 = matchesSuspension errorText ∧
    (matchesSuspension errorText = true →
      (CheckAndMarkSuspended rl tokenKey errorText).2.states tokenKey =
        some { (rl.states tokenKey).getD zeroTokenState with IsSuspended := true } ∧
      IsTokenAvailable (CheckAndMarkSuspended rl tokenKey errorText).2 now tokenKey
        = false) ∧
    (matchesSuspension errorText = false →
      (CheckAndMarkSuspended rl tokenKey errorText).2 = rl) := by
  by_cases hm : matchesSuspension errorText <;>
    simp [CheckAndMarkSuspended, hm, IsTokenAvailable, mapSet_self]

/-- C6 witness: a matching text from the repository's own tests suspends the
key; a non-matching text leaves the fresh state untouched. -/
theorem C6_check_and_mark_suspended_witness :
    matchesSuspension "Account has been suspended" = true ∧
    IsTokenAvailable
      (CheckAndMarkSuspended NewRateLimiter "k" "Account has been suspended").2
      0 "k" = false ∧
    matchesSuspension "connection timeout" = false ∧
    (CheckAndMarkSuspended NewRateLimiter "k" "connection timeout").2
      = NewRateLimiter := by
  refine ⟨by decide, ?_, by decide, ?_⟩
  · exact ((C6_check_and_mark_suspended NewRateLimiter "k"
      "Account has been suspended" 0).2.1 (by decide)).2
  · exact (C6_check_and_mark_suspended NewRateLimiter "k"
      "connection timeout" 0).2.2 (by decide)

/-- C7: a key on which no operation has ever been performed has no
rate-limiter state and no metrics record, so `IsTokenAvailable` returns
`true` and `CalculateScore` returns exactly `1.0`. -/
theorem C7_fresh_key_available_and_score_one (e : ℚ → ℚ) (w : ScorerWeights)
    (rl : RateLimiter) (s : ScorerState) (now₁ now₂ : Int) (tokenKey : String)
    (hrl : rl.states tokenKey = none) (hs : s tokenKey = none) :
    IsTokenAvailable rl now₁ tokenKey = true ∧
    CalculateScore e w s now₂ tokenKey = 1 := by
  constructor
  · simp [IsTokenAvailable, hrl]
  · simp [CalculateScore, hs]

/-- C7 witness: the theorem at the fresh rate limiter and scorer. -/
theorem C7_fresh_key_witness :
    IsTokenAvailable NewRateLimiter 0 "k" = true ∧
    CalculateScore (fun q => q) defaultWeights (mapEmpty : ScorerState) 0 "k" = 1 :=
  C7_fresh_key_available_and_score_one (fun q => q) defaultWeights
    NewRateLimiter (mapEmpty : ScorerState) 0 0 "k" rfl rfl

/-- C8: `CleanupExpired` removes exactly the entries whose end time has
passed at sweep time (both the end time and the reason), and every entry
whose end time has not passed keeps its end time and its reason string
unchanged; keys without a cooldown entry keep their reason lookup
unchanged. -/
theorem C8_cleanup_removes_exactly_expired (cm : CooldownManager) (now : Int)
    (k : String) :
    ((∃ endTime, cm.cooldowns k = some endTime ∧ endTime < now) →
      (CleanupExpired cm now).cooldowns k = none ∧
      (CleanupExpired cm now).reasons k = none) ∧
    (∀ endTime, cm.cooldowns k = some endTime → ¬ endTime < now →
      (CleanupExpired cm now).cooldowns k = some endTime ∧
      (CleanupExpired cm now).reasons k = cm.reasons k) ∧
    (cm.cooldowns k = none →
      (CleanupExpired cm now).cooldowns k = none ∧
      (CleanupExpired cm now).reasons k = cm.reasons k) := by
  refine ⟨?_, ?_, ?_⟩
  · rintro ⟨endTime, he, hlt⟩
    simp [CleanupExpired, he, hlt]
  · intro endTime he hge
    simp [CleanupExpired, he, hge]
  · intro he
    simp [CleanupExpired, he]

/-- C8 witness: a cooldown ending at time 5 is removed (with its reason) by
a sweep at time 10 and kept intact by a sweep at time 3. -/
theorem C8_cleanup_witness :
    (CleanupExpired (SetCooldown NewCooldownManager "a" 0 5 "r") 10).cooldowns "a"
        = none ∧
    (CleanupExpired (SetCooldown NewCooldownManager "a" 0 5 "r") 10).reasons "a"
        = none ∧
    (CleanupExpired (SetCooldown NewCooldownManager "a" 0 5 "r") 3).cooldowns "a"
        = some 5 ∧
    (CleanupExpired (SetCooldown NewCooldownManager "a" 0 5 "r") 3).reasons "a"
        = (SetCooldown NewCooldownManager "a" 0 5 "r").reasons "a" := by
  have h10 := C8_cleanup_removes_exactly_expired
    (SetCooldown NewCooldownManager "a" 0 5 "r") 10 "a"
  have h3 := C8_cleanup_removes_exactly_expired
    (SetCooldown NewCooldownManager "a" 0 5 "r") 3 "a"
  exact ⟨(h10.1 ⟨5, by decide, by decide⟩).1, (h10.1 ⟨5, by decide, by decide⟩).2,
    (h3.2.1 5 (by decide) (by decide)).1, (h3.2.1 5 (by decide) (by decide)).2⟩

/-- C10: in every `CooldownManager` state reachable from
`NewCooldownManager` by `SetCooldown`, `ClearCooldown` and `CleanupExpired`,
the cooldowns map and the reasons map hold exactly the same keys. -/
theorem C10_cooldowns_reasons_same_keys (cm : CooldownManager)
    (h : CMReachable cm) (k : String) :
    (cm.cooldowns k).isSome ↔ (cm.reasons k).isSome := by
  induction h with
  | init => simp [NewCooldownManager, mapEmpty]
  | set cm' tokenKey now duration reason _ ih =>
    by_cases hk : k = tokenKey
    · subst hk; simp [SetCooldown, mapSet_self]
    · simpa [SetCooldown, mapSet, hk] using ih
  | clear cm' tokenKey _ ih =>
    by_cases hk : k = tokenKey
    · subst hk; simp [ClearCooldown, mapDel]
    · simpa [ClearCooldown, mapDel, hk] using ih
  | cleanup cm' now _ ih =>
    cases hc : cm'.cooldowns k with
    | none =>
      have : ¬ (cm'.reasons k).isSome := by
        rw [← ih]; simp [hc]
      simp [CleanupExpired, hc, Option.isSome_iff_exists] at this ⊢
      intro x hx
      exact this x hx
    | some endTime =>
      have hr : (cm'.reasons k).isSome := by
        rw [← ih]; simp [hc]
      by_cases hlt : endTime < now
      · simp [CleanupExpired, hc, hlt]
      · simp [CleanupExpired, hc, hlt, hr]

/-- C10 witness: the invariant at a concrete reachable state. -/
theorem C10_invariant_witness :
    ((SetCooldown NewCooldownManager "a" 0 5 "r").cooldowns "a").isSome ↔
    ((SetCooldown NewCooldownManager "a" 0 5 "r").reasons "a").isSome :=
  C10_cooldowns_reasons_same_keys _
    (CMReachable.set NewCooldownManager "a" 0 5 "r" CMReachable.init) "a"

/-- C1: after `UpdateToken`, the written JSON document holds exactly the
token's access and refresh tokens, the fresh `last_refresh`, the updated
expiry and the client-id/client-secret/auth-method/region/start-url fields
whenever they are non-empty on the token, and every field outside the set
of keys `UpdateToken` writes — in particular every unknown extra field —
keeps its original value. -/
theorem C1_update_token_round_trip (fmtTime : Int → String)
    (existing : JMap Json) (t : Token) (now : Int) :
    UpdateToken fmtTime existing t now "access_token"
      = some (Json.str t.AccessToken) ∧
    UpdateToken fmtTime existing t now "refresh_token"
      = some (Json.str t.RefreshToken) ∧
    UpdateToken fmtTime existing t now "last_refresh"
      = some (Json.str (fmtTime now)) ∧
    (t.ExpiresAt ≠ 0 → UpdateToken fmtTime existing t now "expires_at"
      = some (Json.str (fmtTime t.ExpiresAt))) ∧
    (t.ClientID ≠ "" → UpdateToken fmtTime existing t now "client_id"
      = some (Json.str t.ClientID)) ∧
    (t.ClientSecret ≠ "" → UpdateToken fmtTime existing t now "client_secret"
      = some (Json.str t.ClientSecret)) ∧
    (t.AuthMethod ≠ "" → UpdateToken fmtTime existing t now "auth_method"
      = some (Json.str t.AuthMethod)) ∧
    (t.Region ≠ "" → UpdateToken fmtTime existing t now "region"
      = some (Json.str t.Region)) ∧
    (t.StartURL ≠ "" → UpdateToken fmtTime existing t now "start_url"
      = some (Json.str t.StartURL)) ∧
    (∀ k, k ∉ updatedKeys → UpdateToken fmtTime existing t now k = existing k) := by
  refine ⟨?_, ?_, ?_, ?_, ?_, ?_, ?_, ?_, ?_, ?_⟩
  · simp only [UpdateToken]
    rw [setIf_ne, setIf_ne, setIf_ne, setIf_ne, setIf_ne, setIf_ne,
      mapSet_ne, mapSet_ne, mapSet_self] <;> decide
  · simp only [UpdateToken]
    rw [setIf_ne, setIf_ne, setIf_ne, setIf_ne, setIf_ne, setIf_ne,
      mapSet_ne, mapSet_self] <;> decide
  · simp only [UpdateToken]
    rw [setIf_ne, setIf_ne, setIf_ne, setIf_ne, setIf_ne, setIf_ne,
      mapSet_self] <;> decide
  · intro h; simp only [UpdateToken]
    rw [setIf_ne, setIf_ne, setIf_ne, setIf_ne, setIf_ne, setIf_self]
    all_goals first | assumption | decide
  · intro h; simp only [UpdateToken]
    rw [setIf_ne, setIf_ne, setIf_ne, setIf_ne, setIf_self]
    all_goals first | assumption | decide
  · intro h; simp only [UpdateToken]
    rw [setIf_ne, setIf_ne, setIf_ne, setIf_self]
    all_goals first | assumption | decide
  · intro h; simp only [UpdateToken]
    rw [setIf_ne, setIf_ne, setIf_self]
    all_goals first | assumption | decide
  · intro h; simp only [UpdateToken]
    rw [setIf_ne, setIf_self]
    all_goals first | assumption | decide
  · intro h; simp only [UpdateToken]
    rw [setIf_self]
    all_goals assumption
  · intro k hk
    simp only [updatedKeys, List.mem_cons, List.mem_singleton, not_or] at hk
    obtain ⟨h₁, h₂, h₃, h₄, h₅, h₆, h₇, h₈, h₉⟩ := hk
    simp only [UpdateToken]
    rw [setIf_ne, setIf_ne, setIf_ne, setIf_ne, setIf_ne, setIf_ne,
      mapSet_ne, mapSet_ne, mapSet_ne]
    all_goals first | assumption | exact h₉.1

/-- C1 witness: the theorem at a concrete file with an unknown extra field
and a token whose optional fields are all non-empty. -/
theorem C1_update_token_witness :
    UpdateToken (fun n => toString n)
      (fun k => if k = "extra" then some (Json.str "v") else none)
      { ID := "kiro-a.json", AccessToken := "a", RefreshToken := "rt",
        ClientID := "ci", ClientSecret := "cs", AuthMethod := "idc",
        Region := "us-east-1", StartURL := "su", Provider := "p",
        ExpiresAt := 5, LastVerified := 2 } 7 "access_token"
      = some (Json.str "a") ∧
    UpdateToken (fun n => toString n)
      (fun k => if k = "extra" then some (Json.str "v") else none)
      { ID := "kiro-a.json", AccessToken := "a", RefreshToken := "rt",
        ClientID := "ci", ClientSecret := "cs", AuthMethod := "idc",
        Region := "us-east-1", StartURL := "su", Provider := "p",
        ExpiresAt := 5, LastVerified := 2 } 7 "expires_at"
      = some (Json.str (toString (5 : Int))) ∧
    UpdateToken (fun n => toString n)
      (fun k => if k = "extra" then some (Json.str "v") else none)
      { ID := "kiro-a.json", AccessToken := "a", RefreshToken := "rt",
        ClientID := "ci", ClientSecret := "cs", AuthMethod := "idc",
        Region := "us-east-1", StartURL := "su", Provider := "p",
        ExpiresAt := 5, LastVerified := 2 } 7 "extra"
      = some (Json.str "v") := by
  have h := C1_update_token_round_trip (fun n => toString n)
    (fun k => if k = "extra" then some (Json.str "v") else none)
    { ID := "kiro-a.json", AccessToken := "a", RefreshToken := "rt",
      ClientID := "ci", ClientSecret := "cs", AuthMethod := "idc",
      Region := "us-east-1", StartURL := "su", Provider := "p",
      ExpiresAt := 5, LastVerified := 2 } 7
  refine ⟨h.1, h.2.2.2.1 (by decide), ?_⟩
  rw [h.2.2.2.2.2.2.2.2.2 "extra" (by decide)]
  simp

/-- C3: for a known key with at least one recorded request (so its request
count is positive and its last-used time is set), `CalculateScore` under
the default weights is exactly the weighted sum
`0.40·successRate + 0.25·quotaRemaining + 0.20·exp(-avgLatencyMs/1000)
 + 0.15·(1 - exp(-secondsSinceLastUse/60))` multiplied by the failure
penalty `max 0 (1 - 0.1·consecutiveFailures)`. -/
theorem C3_calculate_score_formula (e : ℚ → ℚ) (s : ScorerState) (now : Int)
    (tokenKey : String) (m : TokenMetrics) (hm : s tokenKey = some m)
    (hreq : 0 < m.TotalRequests) (hused : m.LastUsed ≠ 0) :
    CalculateScore e defaultWeights s now tokenKey =
      (0.4 * m.SuccessRate + 0.25 * m.QuotaRemaining +
        0.2 * e (-m.AvgLatency / 1000) +
        0.15 * (1 - e (-(secondsSince now m.LastUsed) / 60))) *
      max 0 (1 - 0.1 * (m.FailCount : ℚ)) := by
  unfold CalculateScore
  rw [hm]
  simp only [defaultWeights]
  rw [if_neg (Nat.pos_iff_ne_zero.mp hreq), if_neg hused]
  by_cases hf : 0 < m.FailCount
  · rw [if_pos hf]
  · rw [if_neg hf]
    rw [Nat.eq_zero_of_not_pos hf]
    norm_num

/-- The `SelectBestToken` loop returns the first element attaining the
maximum score. -/
theorem selStep_foldl_spec (score : String → ℚ) :
    ∀ (rest : List String) (b : String),
      (∀ t ∈ b :: rest,
        score t ≤ score ((rest.foldl (selStep score) (b, score b)).1)) ∧
      ∃ l₁ l₂,
        b :: rest = l₁ ++ ((rest.foldl (selStep score) (b, score b)).1) :: l₂ ∧
        ∀ t ∈ l₁, score t < score ((rest.foldl (selStep score) (b, score b)).1) := by
  intro rest
  induction rest with
  | nil =>
    intro b
    refine ⟨?_, [], [], rfl, by simp⟩
    intro t ht
    rw [List.mem_singleton] at ht
    subst ht
    exact le_refl _
  | cons c cs ih =>
    intro b
    by_cases hbc : score b < score c
    · have e1 : (c :: cs).foldl (selStep score) (b, score b)
          = cs.foldl (selStep score) (c, score c) := by
        simp [List.foldl_cons, selStep, hbc]
      rw [e1]
      obtain ⟨hmax, l₁, l₂, hsplit, hlt⟩ := ih c
      refine ⟨?_, b :: l₁, l₂, ?_, ?_⟩
      · intro t ht
        rcases List.mem_cons.mp ht with rfl | ht'
        · exact le_trans (le_of_lt hbc) (hmax c (List.mem_cons_self c cs))
        · exact hmax t ht'
      · rw [List.cons_append, ← hsplit]
      · intro t ht
        rcases List.mem_cons.mp ht with rfl | ht'
        · exact lt_of_lt_of_le hbc (hmax c (List.mem_cons_self c cs))
        · exact hlt t ht'
    · have e1 : (c :: cs).foldl (selStep score) (b, score b)
          = cs.foldl (selStep score) (b, score b) := by
        simp [List.foldl_cons, selStep, hbc]
      rw [e1]
      obtain ⟨hmax, l₁, l₂, hsplit, hlt⟩ := ih b
      have hcb : score c ≤ score b := le_of_not_lt hbc
      have hbmax : score b ≤ score ((cs.foldl (selStep score) (b, score b)).1) :=
        hmax b (List.mem_cons_self b cs)
      refine ⟨?_, ?_⟩
      · intro t ht
        rcases List.mem_cons.mp ht with rfl | ht'
        · exact hbmax
        rcases List.mem_cons.mp ht' with rfl | ht''
        · exact le_trans hcb hbmax
        · exact hmax t (List.mem_cons_of_mem b ht'')
      · cases l₁ with
        | nil =>
          have hr : b = (cs.foldl (selStep score) (b, score b)).1 :=
            (List.cons.injEq _ _ _ _ ▸ hsplit).1
          refine ⟨[], c :: cs, ?_, by simp⟩
          rw [List.nil_append, ← hr]
        | cons b' l₁' =>
          have hsplit' := hsplit
          rw [List.cons_append] at hsplit'
          have hb' : b = b' := (List.cons.injEq _ _ _ _ ▸ hsplit').1
          have hcs : cs = l₁' ++ (cs.foldl (selStep score) (b, score b)).1 :: l₂ :=
            (List.cons.injEq _ _ _ _ ▸ hsplit').2
          have hbmem : b ∈ b' :: l₁' := hb' ▸ List.mem_cons_self b' l₁'
          have hbr : score b < score ((cs.foldl (selStep score) (b, score b)).1) :=
            hlt b hbmem
          refine ⟨b :: c :: l₁', l₂, ?_, ?_⟩
          · rw [List.cons_append, List.cons_append, ← hcs]
          · intro t ht
            rcases List.mem_cons.mp ht with rfl | ht'
            · exact hbr
            rcases List.mem_cons.mp ht' with rfl | ht''
            · exact lt_of_le_of_lt hcb hbr
            · exact hlt t (hb' ▸ List.mem_cons_of_mem b' ht'')

/-- C4: `SelectBestToken` returns the empty string on the empty list, the
sole element of a singleton list unconditionally, and on lists of two or
more keys the first-encountered candidate attaining the maximum
`CalculateScore`. -/
theorem C4_select_best_token (e : ℚ → ℚ) (w : ScorerWeights) (s : ScorerState)
    (now : Int) (tokens : List String) :
    (tokens = [] → SelectBestToken e w s now tokens = "") ∧
    (∀ t, tokens = [t] → SelectBestToken e w s now tokens = t) ∧
    (2 ≤ tokens.length →
      (∀ t ∈ tokens, CalculateScore e w s now t ≤
        CalculateScore e w s now (SelectBestToken e w s now tokens)) ∧
      ∃ l₁ l₂, tokens = l₁ ++ SelectBestToken e w s now tokens :: l₂ ∧
        ∀ t ∈ l₁, CalculateScore e w s now t <
          CalculateScore e w s now (SelectBestToken e w s now tokens)) := by
  refine ⟨?_, ?_, ?_⟩
  · rintro rfl; rfl
  · rintro t rfl; rfl
  · intro hlen
    match tokens, hlen with
    | t :: c :: cs, _ =>
      have hsel : SelectBestToken e w s now (t :: c :: cs)
          = ((c :: cs).foldl (selStep (fun tk => CalculateScore e w s now tk))
              (t, CalculateScore e w s now t)).1 := rfl
      rw [hsel]
      exact selStep_foldl_spec (fun tk => CalculateScore e w s now tk) (c :: cs) t

/-- C4 witness: the theorem applied on a two-element tie (both scores `1`),
on the empty list, and on a singleton. -/
theorem C4_select_best_witness :
    CalculateScore (fun q => q) defaultWeights (mapEmpty : ScorerState) 0 "b" ≤
      CalculateScore (fun q => q) defaultWeights (mapEmpty : ScorerState) 0
        (SelectBestToken (fun q => q) defaultWeights (mapEmpty : ScorerState) 0
          ["a", "b"]) ∧
    SelectBestToken (fun q => q) defaultWeights (mapEmpty : ScorerState) 0 [] = "" ∧
    SelectBestToken (fun q => q) defaultWeights (mapEmpty : ScorerState) 0 ["x"]
      = "x" := by
  refine ⟨?_, ?_, ?_⟩
  · exact ((C4_select_best_token (fun q => q) defaultWeights
      (mapEmpty : ScorerState) 0 ["a", "b"]).2.2 (by decide)).1 "b" (by decide)
  · exact (C4_select_best_token (fun q => q) defaultWeights
      (mapEmpty : ScorerState) 0 []).1 rfl
  · exact (C4_select_best_token (fun q => q) defaultWeights
      (mapEmpty : ScorerState) 0 ["x"]).2.1 "x" rfl

/-- C3 witness: the formula evaluated at a concrete metrics record. -/
theorem C3_calculate_score_witness :
    CalculateScore (fun q => q) defaultWeights
      (mapSet (mapEmpty : ScorerState) "k"
        { SuccessRate := 1, AvgLatency := 0, QuotaRemaining := 1,
          LastUsed := 1, FailCount := 0, TotalRequests := 1,
          successCount := 1, totalLatency := 0 })
      1 "k" = 0.8 := by
  rw [C3_calculate_score_formula (fun q => q)
    (mapSet (mapEmpty : ScorerState) "k"
      { SuccessRate := 1, AvgLatency := 0, QuotaRemaining := 1,
        LastUsed := 1, FailCount := 0, TotalRequests := 1,
        successCount := 1, totalLatency := 0 })
    1 "k"
    { SuccessRate := 1, AvgLatency := 0, QuotaRemaining := 1,
      LastUsed := 1, FailCount := 0, TotalRequests := 1,
      successCount := 1, totalLatency := 0 }
    (mapSet_self _ _ _) (by decide) (by decide)]
  norm_num [secondsSince]

/-- A `GetFingerprint` call leaves a stored fingerprint in place. -/
theorem getFingerprint_lookup (rng : Nat → Nat) (hash : String → String)
    (nowNano : Int) (st : FMState) (k : String) :
    (GetFingerprint rng hash nowNano st k).2.fingerprints k
      = some (GetFingerprint rng hash nowNano st k).1 := by
  rcases h : st.fingerprints k with _ | fp <;>
    simp [GetFingerprint, h, mapSet_self]

/-- A `GetFingerprint` call on any key preserves every stored fingerprint. -/
theorem getFingerprint_preserves (rng : Nat → Nat) (hash : String → String)
    (nowNano : Int) (st : FMState) (k k' : String) (fp : Fingerprint)
    (h : st.fingerprints k = some fp) :
    (GetFingerprint rng hash nowNano st k').2.fingerprints k = some fp := by
  rcases h' : st.fingerprints k' with _ | fp' <;> simp [GetFingerprint, h']
  · by_cases hk : k = k'
    · subst hk; rw [h] at h'; cases h'
    · rw [mapSet_ne _ _ _ _ hk]; exact h
  · exact h

/-- Any sequence of further `GetFingerprint` calls preserves every stored
fingerprint. -/
theorem applyGets_preserves (rng : Nat → Nat) (hash : String → String)
    (nowNano : Int) (keys : List String) :
    ∀ (st : FMState) (k : String) (fp : Fingerprint),
      st.fingerprints k = some fp →
      (applyGets rng hash nowNano st keys).fingerprints k = some fp := by
  induction keys with
  | nil => intro st k fp h; simpa [applyGets] using h
  | cons c cs ih =>
    intro st k fp h
    have : applyGets rng hash nowNano st (c :: cs)
        = applyGets rng hash nowNano (GetFingerprint rng hash nowNano st c).2 cs := rfl
    rw [this]
    exact ih _ k fp (getFingerprint_preserves rng hash nowNano st k c fp h)

/-- Indexing below the length stays inside the list. -/
theorem getD_mem (l : List String) : ∀ i : Nat, i < l.length → l.getD i "" ∈ l := by
  induction l with
  | nil => intro i h; simp at h
  | cons a as ih =>
    intro i h
    cases i with
    | zero => rw [List.getD_cons_zero]; exact List.mem_cons_self a as
    | succ n =>
      rw [List.getD_cons_succ]
      exact List.mem_cons_of_mem a (ih n (by simpa using h))

/-- `randomChoice` picks a member of any nonempty catalog. -/
theorem randomChoice_mem (rng : Nat → Nat) (p : Nat) (l : List String)
    (h : l ≠ []) : randomChoice rng p l ∈ l := by
  unfold randomChoice
  exact getD_mem l _ (Nat.mod_lt _ (List.length_pos.mpr h))

/-- C9: every `GetFingerprint(key)` call after the first — across any
interleaved `GetFingerprint` calls on other keys — returns the identical
fingerprint produced by the first call, and every generated fingerprint's
OS version belongs to the OS-version catalog of its generated OS type. -/
theorem C9_fingerprint_stable_and_catalog (rng : Nat → Nat)
    (hash : String → String) (nowNano : Int) (st : FMState)
    (tokenKey : String) (laterKeys : List String) (p : Nat) :
    (GetFingerprint rng hash nowNano
        (applyGets rng hash nowNano
          (GetFingerprint rng hash nowNano st tokenKey).2 laterKeys)
        tokenKey).1
      = (GetFingerprint rng hash nowNano st tokenKey).1 ∧
    (generateFingerprint rng hash nowNano p tokenKey).OSVersion ∈
      osVersionsFor (generateFingerprint rng hash nowNano p tokenKey).OSType := by
  constructor
  · have h1 := getFingerprint_lookup rng hash nowNano st tokenKey
    have h2 := applyGets_preserves rng hash nowNano laterKeys
      (GetFingerprint rng hash nowNano st tokenKey).2 tokenKey
      (GetFingerprint rng hash nowNano st tokenKey).1 h1
    generalize hfp : (GetFingerprint rng hash nowNano st tokenKey).1 = fp at h2 ⊢
    generalize hS : applyGets rng hash nowNano
      (GetFingerprint rng hash nowNano st tokenKey).2 laterKeys = S at h2 ⊢
    simp [GetFingerprint, h2]
  · show randomChoice rng (p + 1) (osVersionsFor (randomChoice rng p osTypes)) ∈
      osVersionsFor (randomChoice rng p osTypes)
    have hne : osVersionsFor (randomChoice rng p osTypes) ≠ [] := by
      have hmem := randomChoice_mem rng p osTypes (by decide)
      revert hmem
      generalize randomChoice rng p osTypes = x
      intro hmem
      simp only [osTypes, List.mem_cons, List.not_mem_nil, or_false] at hmem
      rcases hmem with rfl | rfl | rfl <;> decide
    exact randomChoice_mem rng (p + 1) _ hne

/-- A token produced by `readTokenFile` comes from a file declaring type
`kiro` and carries one of the two device-flow auth methods. -/
theorem readTokenFile_some (parseTime : String → Option Int) (name : String)
    (m : JMap Json) (t : Token)
    (h : readTokenFile parseTime name m = some t) :
    getStr m "type" = "kiro" ∧
    (t.AuthMethod = "idc" ∨ t.AuthMethod = "builder-id") := by
  simp only [readTokenFile] at h
  split at h
  · exact Option.noConfusion h
  next h1 =>
    split at h
    · exact Option.noConfusion h
    next h2 =>
      obtain rfl := Option.some.inj h
      refine ⟨not_not.mp h1, ?_⟩
      rcases not_and_or.mp h2 with h3 | h3
      · exact Or.inl (not_not.mp h3)
      · exact Or.inr (not_not.mp h3)

/-- Inversion of `walkEntry`: a collected token comes from a
provider-prefixed `*.json` file, parses through `readTokenFile`, has a
non-empty refresh token and is inside the refresh window (or has unknown
expiry). -/
theorem walkEntry_some (parseTime : String → Option Int) (now : Int)
    (e : DirEntry) (t : Token) (h : walkEntry parseTime now e = some t) :
    strEnds (strLower e.name) ".json" = true ∧
    strStarts e.name "kiro-" = true ∧
    ∃ m, e.content = some m ∧ readTokenFile parseTime e.name m = some t ∧
      t.RefreshToken ≠ "" ∧
      (t.ExpiresAt = 0 ∨ t.ExpiresAt - now < fiveMinutesNs) := by
  simp only [walkEntry] at h
  split at h
  · exact Option.noConfusion h
  next h1 =>
    split at h
    · exact Option.noConfusion h
    next h2 =>
      split at h
      · exact Option.noConfusion h
      next m hm =>
        split at h
        · exact Option.noConfusion h
        next t' ht' =>
          split at h
          next hcond =>
            obtain rfl := Option.some.inj h
            exact ⟨not_not.mp h1, not_not.mp h2, m, hm, ht', hcond.1, hcond.2⟩
          · exact Option.noConfusion h

/-- C2: every token returned by `FindOldestUnverified` comes from a
`kiro-`-prefixed `*.json` file whose document declares type `kiro`, carries
an `idc` or `builder-id` auth method and a non-empty refresh token, and has
unknown (zero) expiry or an expiry within the 5-minute window; the result
is sorted ascending by last-verified time; a positive limit bounds the
length; a non-positive limit returns the whole sorted collection. -/
theorem C2_find_oldest_unverified_spec (parseTime : String → Option Int)
    (dir : List DirEntry) (now limit : Int) :
    (∀ t ∈ FindOldestUnverified parseTime dir now limit,
      (∃ e ∈ dir, strEnds (strLower e.name) ".json" = true ∧
        strStarts e.name "kiro-" = true ∧
        ∃ m, e.content = some m ∧ getStr m "type" = "kiro" ∧
          readTokenFile parseTime e.name m = some t) ∧
      (t.AuthMethod = "idc" ∨ t.AuthMethod = "builder-id") ∧
      t.RefreshToken ≠ "" ∧
      (t.ExpiresAt = 0 ∨ t.ExpiresAt - now < fiveMinutesNs)) ∧
    List.Sorted lvLE (FindOldestUnverified parseTime dir now limit) ∧
    (0 < limit →
      ((FindOldestUnverified parseTime dir now limit).length : Int) ≤ limit) ∧
    (limit ≤ 0 → FindOldestUnverified parseTime dir now limit
      = List.insertionSort lvLE (collectTokens parseTime dir now)) := by
  refine ⟨?_, ?_, ?_, ?_⟩
  · intro t ht
    have ht' : t ∈ List.insertionSort lvLE (collectTokens parseTime dir now) := by
      simp only [FindOldestUnverified] at ht
      split at ht
      · exact List.take_subset _ _ ht
      · exact ht
    rw [List.mem_insertionSort] at ht'
    obtain ⟨e, hedir, hwalk⟩ := List.mem_filterMap.mp ht'
    obtain ⟨hsuf, hpre, m, hcont, hread, hrt, hexp⟩ :=
      walkEntry_some parseTime now e t hwalk
    obtain ⟨htype, hauth⟩ := readTokenFile_some parseTime e.name m t hread
    exact ⟨⟨e, hedir, hsuf, hpre, m, hcont, htype, hread⟩, hauth, hrt, hexp⟩
  · simp only [FindOldestUnverified]
    split
    · exact List.Pairwise.sublist (List.take_sublist _ _)
        (List.sorted_insertionSort lvLE _)
    · exact List.sorted_insertionSort lvLE _
  · intro hl
    simp only [FindOldestUnverified]
    split
    next hc =>
      have h1 := List.length_take_le limit.toNat
        (List.insertionSort lvLE (collectTokens parseTime dir now))
      omega
    next hc =>
      have h2 : ¬ (limit <
          ((List.insertionSort lvLE (collectTokens parseTime dir now)).length : Int)) :=
        fun hlt => hc ⟨hl, hlt⟩
      omega
  · intro hle
    simp only [FindOldestUnverified]
    exact if_neg (fun hc => absurd hc.1 (not_lt.mpr hle))

/-- C2 witness: the theorem at a one-file directory with limit 1. -/
theorem C2_find_oldest_witness :
    (tokenW.AuthMethod = "idc" ∨ tokenW.AuthMethod = "builder-id") ∧
    tokenW.RefreshToken ≠ "" ∧
    ((FindOldestUnverified (fun _ => none) [dirEntryW] 0 1).length : Int) ≤ 1 := by
  have h := C2_find_oldest_unverified_spec (fun _ => none) [dirEntryW] 0 1
  have hmem : tokenW ∈ FindOldestUnverified (fun _ => none) [dirEntryW] 0 1 := by
    decide
  exact ⟨(h.1 tokenW hmem).2.1, (h.1 tokenW hmem).2.2.1, h.2.2.1 (by decide)⟩

end Kiro
